import Mathlib

/-!
Verification of the webdisplay streaming server (Moeweb647252/webdisplay).

This file shallowly embeds the parts of the Rust source that the spec
claims talk about, and proves or refutes each claim against the embedding:

* src/src/protocol/frame.rs    — the 16-byte wire header codec
* src/src/transport/session.rs — the per-client session loop and its
  control plane (monitor switching, encoding-settings hot reload,
  video-packet emission)
* src/src/transport/webrtc.rs  — outbound data-channel chunking
* src/src/input/win32.rs       — mouse coordinate mapping
* src/src/capture/dda.rs       — monochrome cursor opcode packing

Machine integers are modelled as Nat (with explicit % 2 ^ 32 where the
source casts to u32) or Int where the source uses signed types.  The f32
arithmetic of to_desktop_point is modelled exactly over the rationals,
with round defined as round-half-away-from-zero, matching f32::round.
-/

namespace WebDisplay

/-! ### Frame codec, from src/src/protocol/frame.rs

The FrameType enum in the src copy of frame.rs declares exactly five
variants.  Note that session.rs and websocket.rs additionally reference
FrameType.MonitorList, MonitorSelect, EncodingSettings, MouseInput and
KeyboardInput, which do not exist in this enum: the src copy of frame.rs
is stale and the crate as given does not compile. -/

inductive FrameType where
  | videoFrame
  | keyframeRequest
  | stats
  | ping
  | pong
  deriving DecidableEq, Repr

/-- Discriminant values from the repr(u8) enum in frame.rs. -/
def FrameType.toByte : FrameType → Nat
  | .videoFrame => 0x01
  | .keyframeRequest => 0x02
  | .stats => 0x03
  | .ping => 0x10
  | .pong => 0x11

/-- The tag match at the top of FrameHeader::from_bytes. -/
def FrameType.fromByte : Nat → Option FrameType
  | 0x01 => some .videoFrame
  | 0x02 => some .keyframeRequest
  | 0x03 => some .stats
  | 0x10 => some .ping
  | 0x11 => some .pong
  | _ => none

/-- The bitflags struct FrameFlags; bits is a u8. -/
structure FrameFlags where
  bits : Nat
  deriving DecidableEq, Repr

/-- Flag bit KEYFRAME = 0b0000_0001. -/
def KEYFRAME_BIT : Nat := 0x01

/-- Flag bit END_OF_FRAME = 0b0000_0010. -/
def END_OF_FRAME_BIT : Nat := 0x02

/-- bitflags from_bits_truncate: undefined bits are discarded; the mask of
defined bits is KEYFRAME plus END_OF_FRAME, that is 0b11. -/
def FrameFlags.fromBitsTruncate (b : Nat) : FrameFlags :=
  ⟨b &&& (KEYFRAME_BIT ||| END_OF_FRAME_BIT)⟩

structure FrameHeader where
  frameType : FrameType
  flags : FrameFlags
  sequence : Nat
  pts : Nat
  payloadLen : Nat
  deriving DecidableEq, Repr

/-- Little-endian serialization of a u32, as u32::to_le_bytes. -/
def u32ToLeBytes (n : Nat) : List Nat :=
  [n % 256, n / 256 % 256, n / 256 ^ 2 % 256, n / 256 ^ 3 % 256]

/-- Little-endian deserialization of a u32, as u32::from_le_bytes. -/
def leBytesToU32 (b0 b1 b2 b3 : Nat) : Nat :=
  b0 + 256 * b1 + 256 ^ 2 * b2 + 256 ^ 3 * b3

/-- FrameHeader::to_bytes: tag byte, flags byte, then sequence, pts and
payload_len little-endian, then two reserved zero bytes. -/
def FrameHeader.toBytes (h : FrameHeader) : List Nat :=
  [h.frameType.toByte, h.flags.bits]
    ++ u32ToLeBytes h.sequence
    ++ u32ToLeBytes h.pts
    ++ u32ToLeBytes h.payloadLen
    ++ [0, 0]

/-- FrameHeader::from_bytes over a 16-byte buffer. -/
def FrameHeader.fromBytes (buf : List Nat) : Option FrameHeader :=
  if buf.length = 16 then
    match FrameType.fromByte (buf.getD 0 0) with
    | none => none
    | some ft =>
        some { frameType := ft
               flags := FrameFlags.fromBitsTruncate (buf.getD 1 0)
               sequence := leBytesToU32 (buf.getD 2 0) (buf.getD 3 0) (buf.getD 4 0) (buf.getD 5 0)
               pts := leBytesToU32 (buf.getD 6 0) (buf.getD 7 0) (buf.getD 8 0) (buf.getD 9 0)
               payloadLen :=
                 leBytesToU32 (buf.getD 10 0) (buf.getD 11 0) (buf.getD 12 0) (buf.getD 13 0) }
  else none

/-! ### WebRTC data-channel outbound chunking, from src/src/transport/webrtc.rs

The outbound sender task splits every packet into chunks of at most
MAX_CHUNK_SIZE body bytes, each prefixed with the packet total length and
the chunk offset, both as u32 little-endian. -/

/-- The constant MAX_CHUNK_SIZE = 60000 from the sender task. -/
def MAX_CHUNK_SIZE : Nat := 60000

/-- The sender while loop: while offset < total_len, emit
(total_len as u32 LE) ++ (offset as u32 LE) ++ packet[offset .. offset + chunk_size]
with chunk_size = min MAX_CHUNK_SIZE (total_len - offset), then advance offset. -/
def chunkLoop (packet : List Nat) (totalLen offset : Nat) : List (List Nat) :=
  if h : offset < totalLen then
    (u32ToLeBytes (totalLen % 2 ^ 32) ++ u32ToLeBytes (offset % 2 ^ 32)
        ++ (packet.drop offset).take (min MAX_CHUNK_SIZE (totalLen - offset)))
      :: chunkLoop packet totalLen (offset + min MAX_CHUNK_SIZE (totalLen - offset))
  else []
termination_by totalLen - offset
decreasing_by
  simp only [MAX_CHUNK_SIZE]
  omega

/-- Chunks emitted for one outbound packet: total_len is packet.len() and
offset starts at 0. -/
def sendChunks (packet : List Nat) : List (List Nat) :=
  chunkLoop packet packet.length 0

/-- The total_len prefix field of an emitted chunk. -/
def chunkTotal (c : List Nat) : Nat :=
  leBytesToU32 (c.getD 0 0) (c.getD 1 0) (c.getD 2 0) (c.getD 3 0)

/-- The offset prefix field of an emitted chunk. -/
def chunkOffset (c : List Nat) : Nat :=
  leBytesToU32 (c.getD 4 0) (c.getD 5 0) (c.getD 6 0) (c.getD 7 0)

/-- The body of an emitted chunk: everything after the 8-byte prefix. -/
def chunkBody (c : List Nat) : List Nat := c.drop 8

/-! ### Input injector, from src/src/input/win32.rs

The f32 arithmetic of to_desktop_point is modelled exactly over ℚ;
f32::round rounds half away from zero.  All integer arithmetic
(i32/i64, truncating division, the clamp to the 16-bit range) is exact. -/

/-- The ActiveMonitor value used for coordinate mapping. -/
structure ActiveMonitor where
  left : Int
  top : Int
  width : Nat
  height : Nat
  deriving DecidableEq, Repr

/-- The virtual-desktop rectangle read once at InputInjector::new. -/
structure InputInjector where
  virtualLeft : Int
  virtualTop : Int
  virtualWidth : Int
  virtualHeight : Int
  deriving DecidableEq, Repr

/-- f32::clamp(lo, hi) for lo ≤ hi. -/
def clampQ (x lo hi : ℚ) : ℚ := min (max x lo) hi

/-- f32::round: nearest integer, ties rounded away from zero. -/
def roundTiesAway (q : ℚ) : Int :=
  if q < 0 then -(⌊-q + 1 / 2⌋) else ⌊q + 1 / 2⌋

/-- InputInjector::to_desktop_point: clamp the normalized coordinates to
[0, 1], guard the monitor dimensions with max 1, scale onto the monitor
rectangle and round, then offset by the monitor origin. -/
def toDesktopPoint (monitor : ActiveMonitor) (x y : ℚ) : Int × Int :=
  let clampedX := clampQ x 0 1
  let clampedY := clampQ y 0 1
  let width := max monitor.width 1
  let height := max monitor.height 1
  let localX := roundTiesAway (clampedX * ((width : ℚ) - 1))
  let localY := roundTiesAway (clampedY * ((height : ℚ) - 1))
  (monitor.left + localX, monitor.top + localY)

/-- to_sendinput_absolute: 0 when the virtual size is degenerate,
otherwise ((value - origin) * 65535) / (size - 1) with i64 truncating
division, clamped to [0, 65535]. -/
def toSendinputAbsolute (value virtualOrigin virtualSize : Int) : Int :=
  if virtualSize ≤ 1 then 0
  else min (max (Int.tdiv ((value - virtualOrigin) * 65535) (virtualSize - 1)) 0) 65535

/-- InputInjector::move_mouse: the per-axis absolute values of the emitted
MOUSEEVENTF_ABSOLUTE or MOUSEEVENTF_VIRTUALDESK input event. -/
def moveMouseAbs (inj : InputInjector) (monitor : ActiveMonitor) (x y : ℚ) : Int × Int :=
  let p := toDesktopPoint monitor x y
  (toSendinputAbsolute p.1 inj.virtualLeft inj.virtualWidth,
   toSendinputAbsolute p.2 inj.virtualTop inj.virtualHeight)

/-! ### Monochrome cursor opcode packing, from src/src/capture/dda.rs -/

/-- Body of the MONOCHROME double loop of create_cursor_shape: byte offset
y * pitch + x / 8, bit mask 0x80 >> (x % 8), AND bit from the top plane,
XOR bit from the plane height * pitch bytes below, packed value
and_bit + (xor_bit << 1). -/
def monoOpByte (shapeBuffer : List Nat) (pitch height : Nat) (y x : Nat) : Nat :=
  let byteOff := y * pitch + x / 8
  let bitMask := 0x80 >>> (x % 8)
  let andBit := if shapeBuffer.getD byteOff 0 &&& bitMask ≠ 0 then 1 else 0
  let xorBit := if shapeBuffer.getD (byteOff + height * pitch) 0 &&& bitMask ≠ 0 then 1 else 0
  andBit + (xorBit <<< 1)

/-- The ops vector written row-major by the MONOCHROME loop
(ops[y * width + x] for y in 0..height, x in 0..width). -/
def monoOps (shapeBuffer : List Nat) (pitch width height : Nat) : List Nat :=
  ((List.range height).map (fun y =>
    (List.range width).map (fun x => monoOpByte shapeBuffer pitch height y x))).flatten

/-- The MONOCHROME branch of create_cursor_shape: the width is the
reported width, the height is reported_height / 2, the buffer must hold
pitch * reported_height bytes; on success the ops texture data is the
packed vector. -/
def createCursorShapeMonochrome (widthRep heightRep pitch : Nat)
    (shapeBuffer : List Nat) : Except String (List Nat) :=
  if widthRep = 0 ∨ heightRep / 2 = 0 then Except.error "MONOCHROME cursor size invalid"
  else if shapeBuffer.length < pitch * heightRep then
    Except.error "MONOCHROME cursor data too short"
  else Except.ok (monoOps shapeBuffer pitch widthRep (heightRep / 2))

/-- AND-plane bit at (x, y) per the claim: taken from the top plane of the
stacked 1-bpp buffer, each plane being pitch * (reported_height / 2) bytes. -/
def andPlaneBit (shapeBuffer : List Nat) (pitch : Nat) (x y : Nat) : Nat :=
  if shapeBuffer.getD (y * pitch + x / 8) 0 &&& (0x80 >>> (x % 8)) ≠ 0 then 1 else 0

/-- XOR-plane bit at (x, y) per the claim: taken from the bottom plane,
which starts pitch * (reported_height / 2) bytes into the buffer. -/
def xorPlaneBit (shapeBuffer : List Nat) (pitch heightRep : Nat) (x y : Nat) : Nat :=
  if shapeBuffer.getD (heightRep / 2 * pitch + (y * pitch + x / 8)) 0 &&&
      (0x80 >>> (x % 8)) ≠ 0 then 1 else 0

/-! ### Encoder wrapper interface, from src/src/encode/amf.rs -/

inductive VideoCodec where
  | av1
  | avc
  | hevc
  deriving DecidableEq, Repr

/-- VideoCodec::from_client_name: trim, ASCII lowercase, then match the
client names (avc and h264 are AVC; hevc and h265 are HEVC). -/
def VideoCodec.fromClientName (raw : String) : Option VideoCodec :=
  match raw.trim.toLower with
  | "av1" => some .av1
  | "avc" => some .avc
  | "h264" => some .avc
  | "hevc" => some .hevc
  | "h265" => some .hevc
  | _ => none

/-- VideoCodec::as_client_name. -/
def VideoCodec.asClientName : VideoCodec → String
  | .av1 => "av1"
  | .avc => "avc"
  | .hevc => "hevc"

/-- EncoderConfig handed to AmfEncoder::new. -/
structure EncoderConfig where
  codec : VideoCodec
  width : Nat
  height : Nat
  fps : Nat
  bitrate : Nat
  keyframeInterval : Nat
  deriving DecidableEq, Repr

/-- One encoded access unit as returned by AmfEncoder::encode. -/
structure EncodedFrame where
  data : List Nat
  pts : Nat
  isKeyframe : Bool
  encodeTimeUs : Nat
  deriving DecidableEq, Repr

/-- The encoder wrapper, abstracted to the configuration it was built
with; reconfiguration is by replacement, never mutation. -/
structure AmfEncoder where
  cfg : EncoderConfig
  deriving DecidableEq, Repr

/-- The capture engine, abstracted to its output dimensions. -/
structure DdaCapture where
  width : Nat
  height : Nat
  deriving DecidableEq, Repr

/-! ### Session loop, from src/src/transport/session.rs -/

def DEFAULT_TARGET_FPS : Nat := 60

def MIN_TARGET_FPS : Nat := 24

def MAX_TARGET_FPS : Nat := 120

def DEFAULT_TARGET_BITRATE : Nat := 20000000

def MIN_TARGET_BITRATE : Nat := 2000000

def MAX_TARGET_BITRATE : Nat := 80000000

def DEFAULT_KEYFRAME_INTERVAL_SECS : Nat := 2

def MIN_KEYFRAME_INTERVAL_SECS : Nat := 1

def MAX_KEYFRAME_INTERVAL_SECS : Nat := 10

/-- The active EncodingSettings value of a session. -/
structure EncodingSettings where
  codec : VideoCodec
  fps : Nat
  bitrate : Nat
  keyframeIntervalSecs : Nat
  deriving DecidableEq, Repr

/-- EncodingSettings::default(): AV1, 60 fps, 20 Mb/s, 2 s GOP. -/
def EncodingSettings.default : EncodingSettings :=
  ⟨.av1, DEFAULT_TARGET_FPS, DEFAULT_TARGET_BITRATE, DEFAULT_KEYFRAME_INTERVAL_SECS⟩

/-- The parsed client EncodingSettings control payload. -/
structure EncodingSettingsPayload where
  fps : Nat
  bitrate : Nat
  keyframeInterval : Nat
  codec : Option String
  deriving DecidableEq, Repr

/-- The EncodingSettings state payload echoed to the client. -/
structure EncodingSettingsStatePayload where
  fps : Nat
  bitrate : Nat
  keyframeInterval : Nat
  codec : String
  deriving DecidableEq, Repr

/-- Rust u32::clamp / usize::clamp for lo ≤ hi. -/
def clampNat (v lo hi : Nat) : Nat := min (max v lo) hi

/-- encoder_config from session.rs. -/
def encoderConfig (width height : Nat) (settings : EncodingSettings) : EncoderConfig :=
  ⟨settings.codec, width, height, settings.fps, settings.bitrate,
    settings.keyframeIntervalSecs⟩

/-- The payload built by send_encoding_settings_state (the active bitrate
is cast usize → u32 there). -/
def encodingSettingsStatePayload (settings : EncodingSettings) : EncodingSettingsStatePayload :=
  ⟨settings.fps, settings.bitrate % 2 ^ 32, settings.keyframeIntervalSecs,
    settings.codec.asClientName⟩

/-- The mutable state of run_client_service that the claims concern. -/
structure SessionState where
  forceKeyframe : Bool
  pendingMonitorSwitch : Option Nat
  pendingEncodingSettings : Option EncodingSettingsPayload
  frameSeq : Nat
  currentMonitorIndex : Nat
  settings : EncodingSettings
  capturer : DdaCapture
  encoder : AmfEncoder
  deriving DecidableEq, Repr

/-- Per-packet effect of handle_binary_control_message after header
decoding and JSON parsing: KeyframeRequest sets the latch, MonitorSelect
and EncodingSettings fill the deferred slots, mouse and keyboard input is
dispatched to the injector with no session-state effect, anything else
(bad header, bad payload, other types) is ignored. -/
inductive ControlEffect where
  | keyframeRequest
  | monitorSelect (index : Nat)
  | encodingSettings (payload : EncodingSettingsPayload)
  | inputEvent
  | ignored
  deriving DecidableEq, Repr

def applyControlEffect (st : SessionState) : ControlEffect → SessionState
  | .keyframeRequest => { st with forceKeyframe := true }
  | .monitorSelect index => { st with pendingMonitorSwitch := some index }
  | .encodingSettings payload => { st with pendingEncodingSettings := some payload }
  | .inputEvent => st
  | .ignored => st

/-- drain_control_messages: effects applied in arrival order. -/
def drainControls (st : SessionState) (effs : List ControlEffect) : SessionState :=
  effs.foldl applyControlEffect st

/-- What one drain yields: the peer closed (recv error), or a finite batch
of control messages, each handled, until a would-block none. -/
inductive DrainOutcome where
  | closed
  | effects (effs : List ControlEffect)
  deriving DecidableEq, Repr

/-- Environment of one loop iteration: the outcomes of the fallible
constructors, of capture_frame, of read_nv12 + encode (as a function of
the force-keyframe argument passed to the encoder), and of the sends. -/
structure IterEnv where
  drain : DrainOutcome
  newCapturer : Option DdaCapture
  switchEncoderOk : Bool
  settingsEncoderOk : Bool
  echoSendOk : Bool
  captureOutcome : Except Unit Bool
  encodeOutcome : Bool → Except Unit (List EncodedFrame)
  videoSendFail : Option Nat

/-- switch_monitor: no-op Ok(false) when the index is unchanged; on a
DdaCapture::new or AmfEncoder::new failure the state is untouched and
Ok(false) is returned; on success capturer, encoder and index are all
swapped and Ok(true) is returned.  It never returns Err. -/
def switchMonitor (newIndex : Nat) (st : SessionState)
    (newCapturer : Option DdaCapture) (encoderOk : Bool) : SessionState × Bool :=
  if newIndex = st.currentMonitorIndex then (st, false)
  else
    match newCapturer with
    | none => (st, false)
    | some cap =>
        if encoderOk then
          ({ st with capturer := cap,
                     encoder := ⟨encoderConfig cap.width cap.height st.settings⟩,
                     currentMonitorIndex := newIndex }, true)
        else (st, false)

/-- Codec resolution at the top of apply_encoding_settings: an unknown or
absent codec name falls back to the current codec. -/
def resolveCodec (payload : EncodingSettingsPayload) (current : VideoCodec) : VideoCodec :=
  match payload.codec with
  | some rawCodec =>
      match VideoCodec.fromClientName rawCodec with
      | some codec => codec
      | none => current
  | none => current

/-- Result of apply_encoding_settings: the bool it returns, whether
AmfEncoder::new was invoked, and the resulting active settings/encoder. -/
structure ApplySettingsResult where
  changed : Bool
  attemptedBuild : Bool
  settings : EncodingSettings
  encoder : AmfEncoder
  deriving DecidableEq, Repr

/-- apply_encoding_settings: resolve the codec, clamp fps, bitrate and
keyframe interval; if the clamped candidate equals the active settings
return false without building an encoder; otherwise build a replacement
encoder, swapping it and the settings in on success and keeping both
unchanged on failure. -/
def applyEncodingSettings (payload : EncodingSettingsPayload)
    (settings : EncodingSettings) (encoder : AmfEncoder)
    (width height : Nat) (buildOk : Bool) : ApplySettingsResult :=
  let nextSettings : EncodingSettings :=
    { codec := resolveCodec payload settings.codec
      fps := clampNat payload.fps MIN_TARGET_FPS MAX_TARGET_FPS
      bitrate := clampNat payload.bitrate MIN_TARGET_BITRATE MAX_TARGET_BITRATE
      keyframeIntervalSecs :=
        clampNat payload.keyframeInterval MIN_KEYFRAME_INTERVAL_SECS
          MAX_KEYFRAME_INTERVAL_SECS }
  if nextSettings = settings then
    ⟨false, false, settings, encoder⟩
  else if buildOk then
    ⟨true, true, nextSettings, ⟨encoderConfig width height nextSettings⟩⟩
  else
    ⟨false, true, settings, encoder⟩

/-- build_video_packet: a VideoFrame header with END_OF_FRAME always set
and KEYFRAME set iff the encoder marked the access unit, followed by the
payload. -/
def buildVideoPacket (encodedData : List Nat) (sequence pts : Nat)
    (isKeyframe : Bool) : List Nat :=
  FrameHeader.toBytes
    { frameType := .videoFrame
      flags := ⟨if isKeyframe then END_OF_FRAME_BIT ||| KEYFRAME_BIT else END_OF_FRAME_BIT⟩
      sequence := sequence
      pts := pts
      payloadLen := encodedData.length % 2 ^ 32 }
    ++ encodedData

/-- One packet handed to the transport by the session. -/
inductive Emit where
  | monitorList
  | settingsEcho (payload : EncodingSettingsStatePayload)
  | video (packet : List Nat)
  deriving DecidableEq, Repr

/-- The send loop over the access units of one captured frame: build the
packet with the current sequence, wrapping-increment the counter, stop
after the first failing send (ending the session). -/
def sendVideoFrames (frameSeq : Nat) (frames : List EncodedFrame)
    (failAt : Option Nat) : List Emit × Nat × Bool :=
  match frames with
  | [] => ([], frameSeq, true)
  | ef :: rest =>
      let packet := buildVideoPacket ef.data frameSeq (ef.pts % 2 ^ 32) ef.isKeyframe
      let nextSeq := (frameSeq + 1) % 2 ^ 32
      match failAt with
      | some 0 => ([Emit.video packet], nextSeq, false)
      | some (n + 1) =>
          let r := sendVideoFrames nextSeq rest (some n)
          (Emit.video packet :: r.1, r.2)
      | none =>
          let r := sendVideoFrames nextSeq rest none
          (Emit.video packet :: r.1, r.2)

inductive IterOutcome where
  | next
  | closed
  | fatal
  deriving DecidableEq, Repr

structure IterResult where
  state : SessionState
  emits : List Emit
  outcome : IterOutcome
  deriving DecidableEq, Repr

/-- Step 2 of the loop body: take the deferred monitor switch and apply
it, setting the keyframe latch when it succeeds. -/
def monitorPhase (st1 : SessionState) (env : IterEnv) : SessionState :=
  match st1.pendingMonitorSwitch with
  | none => st1
  | some newIndex =>
      let stTaken := { st1 with pendingMonitorSwitch := none }
      let r := switchMonitor newIndex stTaken env.newCapturer env.switchEncoderOk
      if r.2 then { r.1 with forceKeyframe := true } else r.1

/-- Step 3 of the loop body: take the deferred encoding settings, apply
them (setting the latch when they changed) and echo the active settings;
the Bool is false when the echo send failed, which ends the session. -/
def settingsPhase (st2 : SessionState) (env : IterEnv) : SessionState × List Emit × Bool :=
  match st2.pendingEncodingSettings with
  | none => (st2, [], true)
  | some payload =>
      let stTaken := { st2 with pendingEncodingSettings := none }
      let r := applyEncodingSettings payload stTaken.settings stTaken.encoder
        stTaken.capturer.width stTaken.capturer.height env.settingsEncoderOk
      let st3 := { stTaken with
                   settings := r.settings
                   encoder := r.encoder
                   forceKeyframe := stTaken.forceKeyframe || r.changed }
      (st3, [Emit.settingsEcho (encodingSettingsStatePayload st3.settings)], env.echoSendOk)

/-- Steps 2 and 3 together. -/
def controlPhase (st1 : SessionState) (env : IterEnv) : SessionState × List Emit × Bool :=
  settingsPhase (monitorPhase st1 env) env

/-- Steps 4 to 6: take the keyframe latch (before capturing), capture with
timeout where a timeout paces and continues the loop, read and encode,
then send every produced access unit. -/
def capturePhase (st : SessionState) (acc : List Emit) (env : IterEnv) : IterResult :=
  let requestingKf := st.forceKeyframe
  let stTaken := { st with forceKeyframe := false }
  match env.captureOutcome with
  | .error _ => ⟨stTaken, acc, .fatal⟩
  | .ok false => ⟨stTaken, acc, .next⟩
  | .ok true =>
      match env.encodeOutcome requestingKf with
      | .error _ => ⟨stTaken, acc, .fatal⟩
      | .ok frames =>
          let r := sendVideoFrames stTaken.frameSeq frames env.videoSendFail
          ⟨{ stTaken with frameSeq := r.2.1 }, acc ++ r.1,
            if r.2.2 then .next else .closed⟩

/-- One full iteration of the steady loop of run_client_service. -/
def sessionIterate (st0 : SessionState) (env : IterEnv) : IterResult :=
  match env.drain with
  | .closed => ⟨st0, [], .closed⟩
  | .effects effs =>
      let st1 := drainControls st0 effs
      let r := controlPhase st1 env
      if r.2.2 then capturePhase r.1 r.2.1 env else ⟨r.1, r.2.1, .closed⟩

/-- The steady loop run over a list of iteration environments, stopping
when an iteration closes the session or propagates an error. -/
def runSession : SessionState → List IterEnv → List Emit × SessionState
  | st, [] => ([], st)
  | st, env :: rest =>
      let r := sessionIterate st env
      match r.outcome with
      | .next =>
          let t := runSession r.state rest
          (r.emits ++ t.1, t.2)
      | _ => (r.emits, r.state)

/-- The session state at the top of the steady loop: the keyframe latch
starts true, no pending slots, frame_seq 0, monitor index 0, default
settings, the initial capturer and an encoder built for its dimensions. -/
def initialState (cap : DdaCapture) : SessionState :=
  { forceKeyframe := true
    pendingMonitorSwitch := none
    pendingEncodingSettings := none
    frameSeq := 0
    currentMonitorIndex := 0
    settings := EncodingSettings.default
    capturer := cap
    encoder := ⟨encoderConfig cap.width cap.height EncodingSettings.default⟩ }

/-- The video packets among a list of emissions. -/
def videoPackets (emits : List Emit) : List (List Nat) :=
  emits.filterMap fun e =>
    match e with
    | .video packet => some packet
    | _ => none

/-- Type tag byte of a wire packet. -/
def packetTypeByte (packet : List Nat) : Nat := packet.getD 0 0

/-- Flags byte of a wire packet. -/
def packetFlags (packet : List Nat) : Nat := packet.getD 1 0

/-- Sequence field of a wire packet. -/
def packetSequence (packet : List Nat) : Nat :=
  leBytesToU32 (packet.getD 2 0) (packet.getD 3 0) (packet.getD 4 0) (packet.getD 5 0)

end WebDisplay

namespace WebDisplay

/-! ### Helper lemmas for the frame codec -/

theorem leBytes_roundtrip (n : Nat) (hn : n < 2 ^ 32) :
    leBytesToU32 (n % 256) (n / 256 % 256) (n / 256 ^ 2 % 256) (n / 256 ^ 3 % 256) = n := by
  unfold leBytesToU32
  omega

theorem FrameType.fromByte_toByte (ft : FrameType) :
    FrameType.fromByte ft.toByte = some ft := by
  cases ft <;> rfl

theorem and_three_of_le_three (b : Nat) (hb : b ≤ 3) : b &&& 3 = b := by
  interval_cases b <;> decide

theorem toBytes_length (h : FrameHeader) : h.toBytes.length = 16 := by
  simp [FrameHeader.toBytes, u32ToLeBytes]

/-- Claim C1.  The tag set accepted by FrameHeader::from_bytes in the src
copy of frame.rs is exactly 0x01, 0x02, 0x03, 0x10, 0x11: the five tags
0x04 (MonitorList) through 0x08 (KeyboardInput) that the claim lists are
rejected, although session.rs and websocket.rs in the same crate build and
match on headers of those very types.  This theorem evaluates the decoder
at the failing inputs: a MonitorSelect header (first byte 0x05) and its
neighbours decode to none, while the five declared tags decode.  -/
theorem C1_decoder_tag_set :
    FrameHeader.fromBytes (0x04 :: List.replicate 15 0) = none ∧
    FrameHeader.fromBytes (0x05 :: List.replicate 15 0) = none ∧
    FrameHeader.fromBytes (0x06 :: List.replicate 15 0) = none ∧
    FrameHeader.fromBytes (0x07 :: List.replicate 15 0) = none ∧
    FrameHeader.fromBytes (0x08 :: List.replicate 15 0) = none ∧
    FrameHeader.fromBytes (0x00 :: List.replicate 15 0) = none ∧
    FrameHeader.fromBytes (0x12 :: List.replicate 15 0) = none ∧
    (FrameHeader.fromBytes (0x01 :: List.replicate 15 0)).isSome = true ∧
    (FrameHeader.fromBytes (0x02 :: List.replicate 15 0)).isSome = true ∧
    (FrameHeader.fromBytes (0x03 :: List.replicate 15 0)).isSome = true ∧
    (FrameHeader.fromBytes (0x10 :: List.replicate 15 0)).isSome = true ∧
    (FrameHeader.fromBytes (0x11 :: List.replicate 15 0)).isSome = true := by
  decide

/-- Claim C4.  Header round-trip: for every header whose frame type is one
of the defined tags, whose flags use only the two defined flag bits
(KEYFRAME 0x01, END_OF_FRAME 0x02, so bits at most 3) and whose u32 fields
are in range, from_bytes after to_bytes returns the header unchanged. -/
theorem C4_header_roundtrip (h : FrameHeader)
    (hf : h.flags.bits ≤ 3) (hs : h.sequence < 2 ^ 32) (hp : h.pts < 2 ^ 32)
    (hl : h.payloadLen < 2 ^ 32) :
    FrameHeader.fromBytes h.toBytes = some h := by
  have hft := FrameType.fromByte_toByte h.frameType
  simp only [FrameHeader.fromBytes, toBytes_length, if_true]
  simp only [FrameHeader.toBytes, u32ToLeBytes, List.cons_append, List.nil_append,
    List.getD_cons_zero, List.getD_cons_succ]
  rw [hft]
  simp only [Option.some.injEq]
  have hflags : FrameFlags.fromBitsTruncate h.flags.bits = h.flags := by
    simp only [FrameFlags.fromBitsTruncate, KEYFRAME_BIT, END_OF_FRAME_BIT]
    exact congrArg FrameFlags.mk (and_three_of_le_three _ hf)
  cases h with
  | mk ft fl sq pt pl =>
      simp only [FrameHeader.mk.injEq, true_and] at hflags ⊢
      exact ⟨hflags, leBytes_roundtrip _ hs, leBytes_roundtrip _ hp,
        leBytes_roundtrip _ hl⟩

/-- Witness for C4 at a concrete header. -/
theorem C4_header_roundtrip_witness :
    FrameHeader.fromBytes
      (FrameHeader.toBytes ⟨.videoFrame, ⟨3⟩, 7, 11, 900⟩) =
      some ⟨.videoFrame, ⟨3⟩, 7, 11, 900⟩ :=
  C4_header_roundtrip ⟨.videoFrame, ⟨3⟩, 7, 11, 900⟩ (by decide) (by decide)
    (by decide) (by decide)

/-- Claim C10.  Decoder tolerance: from_bytes never looks at the two
reserved trailing bytes, undefined flag bits are discarded (decoded flags
always lie inside KEYFRAME plus END_OF_FRAME, mask 3), and to_bytes writes
the reserved bytes 14 and 15 as zero. -/
theorem C10_decoder_tolerance :
    (∀ b1 b2 : List Nat, b1.length = 16 → b2.length = 16 →
        b1.take 14 = b2.take 14 →
        FrameHeader.fromBytes b1 = FrameHeader.fromBytes b2) ∧
    (∀ (buf : List Nat) (h : FrameHeader), FrameHeader.fromBytes buf = some h →
        h.flags.bits &&& 3 = h.flags.bits) ∧
    (∀ h : FrameHeader, h.toBytes.getD 14 0 = 0 ∧ h.toBytes.getD 15 0 = 0) := by
  refine ⟨?_, ?_, ?_⟩
  · intro b1 b2 h1 h2 ht
    have hpt : ∀ i, i < 14 → b1.getD i 0 = b2.getD i 0 := by
      intro i hi
      have e1 : b1.getD i 0 = (b1.take 14).getD i 0 := by
        rw [List.getD_eq_getElem?_getD, List.getD_eq_getElem?_getD, List.getElem?_take,
          if_pos hi]
      have e2 : b2.getD i 0 = (b2.take 14).getD i 0 := by
        rw [List.getD_eq_getElem?_getD, List.getD_eq_getElem?_getD, List.getElem?_take,
          if_pos hi]
      rw [e1, e2, ht]
    simp only [FrameHeader.fromBytes, h1, h2, if_true]
    rw [hpt 0 (by omega), hpt 1 (by omega), hpt 2 (by omega), hpt 3 (by omega),
      hpt 4 (by omega), hpt 5 (by omega), hpt 6 (by omega), hpt 7 (by omega),
      hpt 8 (by omega), hpt 9 (by omega), hpt 10 (by omega), hpt 11 (by omega),
      hpt 12 (by omega), hpt 13 (by omega)]
  · intro buf h heq
    unfold FrameHeader.fromBytes at heq
    split at heq
    · split at heq
      · exact absurd heq (by simp)
      · simp only [Option.some.injEq] at heq
        subst heq
        simp only [FrameFlags.fromBitsTruncate, KEYFRAME_BIT, END_OF_FRAME_BIT]
        exact and_three_of_le_three _ Nat.and_le_right
    · exact absurd heq (by simp)
  · intro h
    constructor <;> simp [FrameHeader.toBytes, u32ToLeBytes]

/-- Witness for C10 at concrete buffers and a concrete header. -/
theorem C10_decoder_tolerance_witness :
    FrameHeader.fromBytes (0x01 :: List.replicate 13 0 ++ [7, 9]) =
      FrameHeader.fromBytes (0x01 :: List.replicate 13 0 ++ [4, 5]) ∧
    (⟨.videoFrame, ⟨3⟩, 0, 0, 0⟩ : FrameHeader).flags.bits &&& 3 = 3 ∧
    ((⟨.ping, ⟨1⟩, 2, 3, 4⟩ : FrameHeader).toBytes.getD 14 0 = 0 ∧
      (⟨.ping, ⟨1⟩, 2, 3, 4⟩ : FrameHeader).toBytes.getD 15 0 = 0) :=
  ⟨C10_decoder_tolerance.1 _ _ (by decide) (by decide) (by decide),
    C10_decoder_tolerance.2.1 (0x01 :: 0x03 :: List.replicate 14 0)
      ⟨.videoFrame, ⟨3⟩, 0, 0, 0⟩ (by decide),
    C10_decoder_tolerance.2.2 ⟨.ping, ⟨1⟩, 2, 3, 4⟩⟩

/-! ### Lemmas for the chunking loop -/

theorem u32ToLeBytes_mod (n : Nat) : u32ToLeBytes (n % 2 ^ 32) = u32ToLeBytes n := by
  simp only [u32ToLeBytes, List.cons.injEq, and_true]
  omega

theorem chunkTotal_mk (a b : Nat) (body : List Nat) (ha : a < 2 ^ 32) :
    chunkTotal (u32ToLeBytes a ++ u32ToLeBytes b ++ body) = a := by
  simp only [chunkTotal, u32ToLeBytes, List.cons_append, List.nil_append,
    List.getD_cons_zero, List.getD_cons_succ]
  exact leBytes_roundtrip a ha

theorem chunkOffset_mk (a b : Nat) (body : List Nat) (hb : b < 2 ^ 32) :
    chunkOffset (u32ToLeBytes a ++ u32ToLeBytes b ++ body) = b := by
  simp only [chunkOffset, u32ToLeBytes, List.cons_append, List.nil_append,
    List.getD_cons_zero, List.getD_cons_succ]
  exact leBytes_roundtrip b hb

theorem chunkBody_mk (a b : Nat) (body : List Nat) :
    chunkBody (u32ToLeBytes a ++ u32ToLeBytes b ++ body) = body := by
  simp [chunkBody, u32ToLeBytes]

theorem chunkLoop_flatten (packet : List Nat) (totalLen : Nat)
    (hlen : totalLen = packet.length) (offset : Nat) :
    ((chunkLoop packet totalLen offset).map chunkBody).flatten = packet.drop offset := by
  induction offset using chunkLoop.induct with
  | packet => exact packet
  | totalLen => exact totalLen
  | case1 offset h ih =>
      rw [chunkLoop, dif_pos h]
      rw [List.map_cons, List.flatten_cons, chunkBody_mk, ih]
      rw [← List.drop_drop, List.take_append_drop]
  | case2 offset h =>
      rw [chunkLoop, dif_neg h]
      have : packet.length ≤ offset := by omega
      simp [List.drop_eq_nil_of_le this]

theorem chunkLoop_mem_spec (packet : List Nat) (totalLen : Nat)
    (hlen : totalLen = packet.length) (h32 : totalLen < 2 ^ 32) (offset : Nat) :
    ∀ c ∈ chunkLoop packet totalLen offset,
      chunkTotal c = totalLen ∧
      (chunkBody c).length ≤ MAX_CHUNK_SIZE ∧
      chunkOffset c + (chunkBody c).length ≤ totalLen ∧
      c = u32ToLeBytes totalLen ++ u32ToLeBytes (chunkOffset c) ++ chunkBody c := by
  induction offset using chunkLoop.induct with
  | packet => exact packet
  | totalLen => exact totalLen
  | case1 offset h ih =>
      intro c hc
      rw [chunkLoop, dif_pos h] at hc
      rcases List.mem_cons.mp hc with hc0 | hcr
      · subst hc0
        rw [u32ToLeBytes_mod, u32ToLeBytes_mod]
        have hoff : offset < 2 ^ 32 := by omega
        have hbody :
            ((packet.drop offset).take (min MAX_CHUNK_SIZE (totalLen - offset))).length =
              min MAX_CHUNK_SIZE (totalLen - offset) := by
          rw [List.length_take, List.length_drop, ← hlen]
          simp only [MAX_CHUNK_SIZE]
          omega
        refine ⟨chunkTotal_mk _ _ _ h32, ?_, ?_, ?_⟩
        · rw [chunkBody_mk, hbody]
          exact Nat.min_le_left _ _
        · rw [chunkBody_mk, hbody, chunkOffset_mk _ _ _ hoff]
          simp only [MAX_CHUNK_SIZE]
          omega
        · rw [chunkBody_mk, chunkOffset_mk _ _ _ hoff]
      · exact ih c hcr
  | case2 offset h =>
      intro c hc
      rw [chunkLoop, dif_neg h] at hc
      exact absurd hc (List.not_mem_nil c)

theorem chunkLoop_offsets (packet : List Nat) (totalLen : Nat)
    (hlen : totalLen = packet.length) (h32 : totalLen < 2 ^ 32) (offset : Nat) :
    offset ≤ totalLen →
    ∀ i, i < (chunkLoop packet totalLen offset).length →
      chunkOffset ((chunkLoop packet totalLen offset).getD i []) =
        offset + ((((chunkLoop packet totalLen offset).take i).map chunkBody).flatten).length := by
  induction offset using chunkLoop.induct with
  | packet => exact packet
  | totalLen => exact totalLen
  | case1 offset h ih =>
      intro hoff i hi
      have hoff32 : offset < 2 ^ 32 := by omega
      have hbody :
          ((packet.drop offset).take (min MAX_CHUNK_SIZE (totalLen - offset))).length =
            min MAX_CHUNK_SIZE (totalLen - offset) := by
        rw [List.length_take, List.length_drop, ← hlen]
        simp only [MAX_CHUNK_SIZE]
        omega
      rw [chunkLoop, dif_pos h] at hi ⊢
      cases i with
      | zero =>
          simp only [List.getD_cons_zero, List.take_zero, List.map_nil, List.flatten_nil,
            List.length_nil, Nat.add_zero]
          rw [u32ToLeBytes_mod, u32ToLeBytes_mod]
          exact chunkOffset_mk _ _ _ (by omega)
      | succ i =>
          simp only [List.getD_cons_succ, List.take_succ_cons, List.map_cons, List.flatten_cons,
            List.length_append]
          have hnext : offset + min MAX_CHUNK_SIZE (totalLen - offset) ≤ totalLen := by
            simp only [MAX_CHUNK_SIZE]
            omega
          rw [ih hnext i (by simpa using hi), chunkBody_mk, hbody]
          omega
  | case2 offset h =>
      intro hoff i hi
      rw [chunkLoop, dif_neg h] at hi
      exact absurd hi (by simp)

/-- Claim C7.  Outbound data-channel chunking: every emitted chunk carries
the 8-byte prefix (total_len, offset) with total_len equal to the packet
length, chunk bodies are at most 60000 bytes, offset plus body length
never exceeds total_len, each chunk offset equals the number of body bytes
emitted before it (so the bodies placed at their offsets in emission order
exactly cover the packet), and the bodies concatenate to the packet. -/
theorem C7_chunking (packet : List Nat) (hlen : packet.length < 2 ^ 32) :
    (∀ c ∈ sendChunks packet,
        chunkTotal c = packet.length ∧
        (chunkBody c).length ≤ 60000 ∧
        chunkOffset c + (chunkBody c).length ≤ packet.length ∧
        c = u32ToLeBytes packet.length ++ u32ToLeBytes (chunkOffset c) ++ chunkBody c) ∧
    ((sendChunks packet).map chunkBody).flatten = packet ∧
    ∀ i, i < (sendChunks packet).length →
      chunkOffset ((sendChunks packet).getD i []) =
        ((((sendChunks packet).take i).map chunkBody).flatten).length := by
  refine ⟨?_, ?_, ?_⟩
  · have h := chunkLoop_mem_spec packet packet.length rfl hlen 0
    simpa [sendChunks, MAX_CHUNK_SIZE] using h
  · simpa [sendChunks] using chunkLoop_flatten packet packet.length rfl 0
  · have h := chunkLoop_offsets packet packet.length rfl hlen 0 (Nat.zero_le _)
    simpa [sendChunks] using h

/-- Witness for C7 at a concrete packet. -/
theorem C7_chunking_witness :
    ((sendChunks [1, 2, 3]).map chunkBody).flatten = [1, 2, 3] :=
  (C7_chunking [1, 2, 3] (by decide)).2.1

/-! ### Mouse coordinate mapping (claim C8) -/

theorem toSendinputAbsolute_in_desktop (v o s : Int) (hs : 2 ≤ s) (hlo : o ≤ v)
    (hhi : v ≤ o + s - 1) :
    toSendinputAbsolute v o s = Int.tdiv ((v - o) * 65535) (s - 1) := by
  unfold toSendinputAbsolute
  rw [if_neg (by omega)]
  have hN : (0 : Int) ≤ (v - o) * 65535 := mul_nonneg (by omega) (by norm_num)
  have h0 : (0 : Int) ≤ Int.tdiv ((v - o) * 65535) (s - 1) :=
    Int.tdiv_nonneg hN (by omega)
  have hle : Int.tdiv ((v - o) * 65535) (s - 1) ≤ 65535 := by
    rw [Int.tdiv_eq_ediv hN (by omega)]
    calc (v - o) * 65535 / (s - 1)
        ≤ 65535 * (s - 1) / (s - 1) := by
          refine Int.ediv_le_ediv (by omega) ?_
          have h := mul_le_mul_of_nonneg_right (show v - o ≤ s - 1 by omega)
            (show (0 : Int) ≤ 65535 by norm_num)
          linarith
      _ = 65535 := Int.mul_ediv_cancel _ (by omega)
  rw [max_eq_left h0, min_eq_left hle]

/-- Counterexample to claim C8: the per-axis value emitted by move_mouse is
not always ((pixel - virtual_origin) * 65535) / (virtual_size - 1): for a
monitor rectangle lying outside the virtual desktop the code clamps the
value into [0, 65535] while the claimed formula is negative.  Virtual
desktop (0, 0, 100, 100); monitor (-1000, 0, 1, 1); input (0, 0). -/
theorem C8_counterexample :
    toDesktopPoint ⟨-1000, 0, 1, 1⟩ 0 0 = (-1000, 0) ∧
    (moveMouseAbs ⟨0, 0, 100, 100⟩ ⟨-1000, 0, 1, 1⟩ 0 0).1 = 0 ∧
    Int.tdiv (((-1000 : Int) - 0) * 65535) (100 - 1) < 0 := by
  have h1 : toDesktopPoint ⟨-1000, 0, 1, 1⟩ 0 0 = (-1000, 0) := by
    norm_num [toDesktopPoint, clampQ, roundTiesAway]
  refine ⟨h1, ?_, by decide⟩
  show toSendinputAbsolute (toDesktopPoint ⟨-1000, 0, 1, 1⟩ 0 0).1 0 100 = 0
  rw [h1]
  show toSendinputAbsolute (-1000) 0 100 = 0
  decide

/-- Claim C8, amended.  For a monitor of positive dimensions, move_mouse
clamps the normalized input to [0, 1] and targets the desktop pixel
(left + round(x * (W - 1)), top + round(y * (H - 1))) with round half away
from zero; the emitted per-axis absolute value is the claimed quotient
((pixel - virtual_origin) * 65535) / (virtual_size - 1) additionally
clamped to [0, 65535] (and 0 for a degenerate virtual size), so the
claimed formula holds verbatim whenever the pixel lies inside the virtual
desktop axis range; in particular the midpoint input hits
(left + round(0.5 * (W - 1)), top + round(0.5 * (H - 1))). -/
theorem C8_mouse_mapping (inj : InputInjector) (monitor : ActiveMonitor) (x y : ℚ)
    (hw : 1 ≤ monitor.width) (hh : 1 ≤ monitor.height) :
    toDesktopPoint monitor x y =
      (monitor.left + roundTiesAway (clampQ x 0 1 * ((monitor.width : ℚ) - 1)),
        monitor.top + roundTiesAway (clampQ y 0 1 * ((monitor.height : ℚ) - 1))) ∧
    (0 : ℚ) ≤ clampQ x 0 1 ∧ clampQ x 0 1 ≤ 1 ∧
    moveMouseAbs inj monitor x y =
      (toSendinputAbsolute (toDesktopPoint monitor x y).1 inj.virtualLeft inj.virtualWidth,
        toSendinputAbsolute (toDesktopPoint monitor x y).2 inj.virtualTop inj.virtualHeight) ∧
    (∀ v o s : Int, 2 ≤ s → o ≤ v → v ≤ o + s - 1 →
        toSendinputAbsolute v o s = Int.tdiv ((v - o) * 65535) (s - 1)) ∧
    toDesktopPoint monitor (1 / 2) (1 / 2) =
      (monitor.left + roundTiesAway (1 / 2 * ((monitor.width : ℚ) - 1)),
        monitor.top + roundTiesAway (1 / 2 * ((monitor.height : ℚ) - 1))) := by
  have hwmax : max monitor.width 1 = monitor.width := Nat.max_eq_left hw
  have hhmax : max monitor.height 1 = monitor.height := Nat.max_eq_left hh
  have hpoint : ∀ a b : ℚ, toDesktopPoint monitor a b =
      (monitor.left + roundTiesAway (clampQ a 0 1 * ((monitor.width : ℚ) - 1)),
        monitor.top + roundTiesAway (clampQ b 0 1 * ((monitor.height : ℚ) - 1))) := by
    intro a b
    simp only [toDesktopPoint, hwmax, hhmax]
  refine ⟨hpoint x y, ?_, ?_, rfl, toSendinputAbsolute_in_desktop, ?_⟩
  · simp only [clampQ]
    exact le_min (le_max_right x 0) (by norm_num)
  · simp only [clampQ]
    exact min_le_right _ _
  · rw [hpoint]
    have hc : clampQ (1 / 2 : ℚ) 0 1 = 1 / 2 := by
      unfold clampQ
      rw [max_eq_left (by norm_num), min_eq_left (by norm_num)]
    rw [hc]

/-- Witness for C8 at a concrete monitor and midpoint input. -/
theorem C8_mouse_mapping_witness :
    toDesktopPoint ⟨10, 20, 100, 50⟩ (1 / 2) (1 / 2) =
      (10 + roundTiesAway (clampQ (1 / 2) 0 1 * (((100 : Nat) : ℚ) - 1)),
        20 + roundTiesAway (clampQ (1 / 2) 0 1 * (((50 : Nat) : ℚ) - 1))) :=
  (C8_mouse_mapping ⟨0, 0, 200, 200⟩ ⟨10, 20, 100, 50⟩ (1 / 2) (1 / 2)
    (by decide) (by decide)).1

/-! ### Monochrome opcode packing (claim C9) -/

theorem flatten_map_range_length {α : Type} (g : Nat → List α) (h w : Nat)
    (hw : ∀ i, (g i).length = w) :
    (((List.range h).map g).flatten).length = h * w := by
  induction h with
  | zero => simp
  | succ n ih =>
      rw [List.range_succ, List.map_append, List.flatten_append, List.length_append, ih]
      simp [hw, Nat.succ_mul]

theorem flatten_map_range_getD {α : Type} (d : α) (g : Nat → List α) (h w : Nat)
    (hw : ∀ i, (g i).length = w) (y x : Nat) (hy : y < h) (hx : x < w) :
    (((List.range h).map g).flatten).getD (y * w + x) d = (g y).getD x d := by
  induction h with
  | zero => omega
  | succ n ih =>
      rw [List.range_succ, List.map_append, List.flatten_append]
      by_cases hyn : y < n
      · rw [List.getD_append]
        · exact ih hyn
        · rw [flatten_map_range_length g n w hw]
          calc y * w + x < y * w + w := by omega
            _ = (y + 1) * w := (Nat.succ_mul y w).symm
            _ ≤ n * w := Nat.mul_le_mul_right w hyn
      · have hyeq : y = n := by omega
        subst hyeq
        have hlen : (((List.range y).map g).flatten).length = y * w :=
          flatten_map_range_length g y w hw
        have hge : (((List.range y).map g).flatten).length ≤ y * w + x := by
          rw [hlen]
          omega
        rw [List.getD_append_right _ _ _ _ hge, hlen]
        have hidx : y * w + x - y * w = x := by omega
        rw [hidx]
        simp

theorem bit_pack (a b : Nat) (ha : a ≤ 1) (hb : b ≤ 1) :
    a + (b <<< 1) = a ||| (b <<< 1) := by
  interval_cases a <;> interval_cases b <;> decide

/-- Claim C9.  For every pixel of a successfully decoded monochrome cursor
shape, the byte written into the cursor texture equals
and_bit ||| (xor_bit <<< 1), the AND bit coming from the top plane and the
XOR bit from the bottom plane (each plane pitch * (reported_height / 2)
bytes). -/
theorem C9_mono_opcode_packing (widthRep heightRep pitch : Nat) (shapeBuffer : List Nat)
    (ops : List Nat)
    (hok : createCursorShapeMonochrome widthRep heightRep pitch shapeBuffer = Except.ok ops)
    (x y : Nat) (hx : x < widthRep) (hy : y < heightRep / 2) :
    ops.getD (y * widthRep + x) 0 =
      andPlaneBit shapeBuffer pitch x y |||
        (xorPlaneBit shapeBuffer pitch heightRep x y <<< 1) := by
  unfold createCursorShapeMonochrome at hok
  rw [if_neg (show ¬(widthRep = 0 ∨ heightRep / 2 = 0) by omega)] at hok
  by_cases hbuf : shapeBuffer.length < pitch * heightRep
  · rw [if_pos hbuf] at hok
    exact absurd hok (by simp)
  · rw [if_neg hbuf] at hok
    simp only [Except.ok.injEq] at hok
    subst hok
    unfold monoOps
    rw [flatten_map_range_getD 0 _ (heightRep / 2) widthRep (fun i => by simp) y x hy hx]
    have hxlen : x < ((List.range widthRep).map
        (fun x => monoOpByte shapeBuffer pitch (heightRep / 2) y x)).length := by
      simpa using hx
    rw [List.getD_eq_getElem _ _ hxlen]
    simp only [List.getElem_map, List.getElem_range]
    simp only [monoOpByte, andPlaneBit, xorPlaneBit]
    rw [Nat.add_comm (y * pitch + x / 8) (heightRep / 2 * pitch)]
    exact bit_pack _ _ (by split <;> decide) (by split <;> decide)

/-- Witness for C9 at a concrete 8 x 2 monochrome shape. -/
theorem C9_mono_opcode_packing_witness :
    (monoOps [0xA5, 0x3C] 1 8 1).getD (0 * 8 + 3) 0 =
      andPlaneBit [0xA5, 0x3C] 1 3 0 ||| (xorPlaneBit [0xA5, 0x3C] 1 2 3 0 <<< 1) :=
  C9_mono_opcode_packing 8 2 1 [0xA5, 0x3C] (monoOps [0xA5, 0x3C] 1 8 1) rfl 3 0
    (by decide) (by decide)

/-! ### Session-loop helper lemmas and the settings claims -/

theorem clampNat_bounds (v lo hi : Nat) (h : lo ≤ hi) :
    lo ≤ clampNat v lo hi ∧ clampNat v lo hi ≤ hi :=
  ⟨le_min (le_max_right v lo) h, min_le_right _ _⟩

theorem capturePhase_emits_shape (st : SessionState) (acc : List Emit) (env : IterEnv) :
    ∃ tail, (capturePhase st acc env).emits = acc ++ tail := by
  unfold capturePhase
  split
  · exact ⟨[], (List.append_nil acc).symm⟩
  · exact ⟨[], (List.append_nil acc).symm⟩
  · dsimp only
    split
    · exact ⟨[], (List.append_nil acc).symm⟩
    · exact ⟨_, rfl⟩

/-- Claim C3.  Applying an EncodingSettings payload clamps fps to
[24, 120], bitrate to [2000000, 80000000] and keyframe interval to
[1, 10]; when the clamped candidate (unknown or absent codec resolved to
the current codec) equals the active settings, no replacement encoder is
constructed and settings and encoder are unchanged; the state frame echoed
to the client carries the active (clamped) values after application. -/
theorem C3_settings_clamping (payload : EncodingSettingsPayload)
    (settings : EncodingSettings) (encoder : AmfEncoder) (width height : Nat)
    (buildOk : Bool) :
    ((applyEncodingSettings payload settings encoder width height buildOk).changed = true →
      (applyEncodingSettings payload settings encoder width height buildOk).settings =
        { codec := resolveCodec payload settings.codec
          fps := clampNat payload.fps MIN_TARGET_FPS MAX_TARGET_FPS
          bitrate := clampNat payload.bitrate MIN_TARGET_BITRATE MAX_TARGET_BITRATE
          keyframeIntervalSecs :=
            clampNat payload.keyframeInterval MIN_KEYFRAME_INTERVAL_SECS
              MAX_KEYFRAME_INTERVAL_SECS } ∧
      24 ≤ (applyEncodingSettings payload settings encoder width height buildOk).settings.fps ∧
      (applyEncodingSettings payload settings encoder width height buildOk).settings.fps ≤ 120 ∧
      2000000 ≤
        (applyEncodingSettings payload settings encoder width height buildOk).settings.bitrate ∧
      (applyEncodingSettings payload settings encoder width height buildOk).settings.bitrate ≤
        80000000 ∧
      1 ≤ (applyEncodingSettings payload settings encoder width height
        buildOk).settings.keyframeIntervalSecs ∧
      (applyEncodingSettings payload settings encoder width height
        buildOk).settings.keyframeIntervalSecs ≤ 10) ∧
    (({ codec := resolveCodec payload settings.codec
        fps := clampNat payload.fps MIN_TARGET_FPS MAX_TARGET_FPS
        bitrate := clampNat payload.bitrate MIN_TARGET_BITRATE MAX_TARGET_BITRATE
        keyframeIntervalSecs :=
          clampNat payload.keyframeInterval MIN_KEYFRAME_INTERVAL_SECS
            MAX_KEYFRAME_INTERVAL_SECS } : EncodingSettings) = settings →
      applyEncodingSettings payload settings encoder width height buildOk =
        ⟨false, false, settings, encoder⟩) ∧
    (∀ (st : SessionState) (env : IterEnv) (effs : List ControlEffect),
      env.drain = DrainOutcome.effects effs →
      (drainControls st effs).pendingMonitorSwitch = none →
      (drainControls st effs).pendingEncodingSettings = some payload →
      ∃ rest, (sessionIterate st env).emits =
        Emit.settingsEcho (encodingSettingsStatePayload
          (applyEncodingSettings payload (drainControls st effs).settings
            (drainControls st effs).encoder (drainControls st effs).capturer.width
            (drainControls st effs).capturer.height env.settingsEncoderOk).settings) :: rest) := by
  refine ⟨?_, ?_, ?_⟩
  · intro hch
    have hres : applyEncodingSettings payload settings encoder width height buildOk =
        ⟨true, true,
          { codec := resolveCodec payload settings.codec
            fps := clampNat payload.fps MIN_TARGET_FPS MAX_TARGET_FPS
            bitrate := clampNat payload.bitrate MIN_TARGET_BITRATE MAX_TARGET_BITRATE
            keyframeIntervalSecs :=
              clampNat payload.keyframeInterval MIN_KEYFRAME_INTERVAL_SECS
                MAX_KEYFRAME_INTERVAL_SECS },
          ⟨encoderConfig width height
            { codec := resolveCodec payload settings.codec
              fps := clampNat payload.fps MIN_TARGET_FPS MAX_TARGET_FPS
              bitrate := clampNat payload.bitrate MIN_TARGET_BITRATE MAX_TARGET_BITRATE
              keyframeIntervalSecs :=
                clampNat payload.keyframeInterval MIN_KEYFRAME_INTERVAL_SECS
                  MAX_KEYFRAME_INTERVAL_SECS }⟩⟩ := by
      simp only [applyEncodingSettings] at hch ⊢
      split_ifs at hch ⊢
      simp_all
    rw [hres]
    exact ⟨rfl,
      (clampNat_bounds payload.fps MIN_TARGET_FPS MAX_TARGET_FPS (by decide)).1,
      (clampNat_bounds payload.fps MIN_TARGET_FPS MAX_TARGET_FPS (by decide)).2,
      (clampNat_bounds payload.bitrate MIN_TARGET_BITRATE MAX_TARGET_BITRATE (by decide)).1,
      (clampNat_bounds payload.bitrate MIN_TARGET_BITRATE MAX_TARGET_BITRATE (by decide)).2,
      (clampNat_bounds payload.keyframeInterval MIN_KEYFRAME_INTERVAL_SECS
        MAX_KEYFRAME_INTERVAL_SECS (by decide)).1,
      (clampNat_bounds payload.keyframeInterval MIN_KEYFRAME_INTERVAL_SECS
        MAX_KEYFRAME_INTERVAL_SECS (by decide)).2⟩
  · intro hEq
    simp only [applyEncodingSettings]
    rw [if_pos hEq]
  · intro st env effs hdrain hpm hpe
    simp only [sessionIterate, hdrain]
    simp only [controlPhase, monitorPhase, hpm]
    simp only [settingsPhase, hpe]
    cases hecho : env.echoSendOk
    · rw [if_neg (by simp [hecho])]
      exact ⟨[], rfl⟩
    · rw [if_pos (by simp [hecho])]
      obtain ⟨tail, htail⟩ := capturePhase_emits_shape _ _ env
      exact ⟨tail, by rw [htail]; rfl⟩

/-- Witness for C3: the payload fps 5, bitrate 1, keyframe interval 0 is
accepted as a change from the defaults and lands on the clamp minima. -/
theorem C3_settings_clamping_witness :
    24 ≤ (applyEncodingSettings ⟨5, 1, 0, none⟩ EncodingSettings.default
      ⟨encoderConfig 1920 1080 EncodingSettings.default⟩ 1920 1080 true).settings.fps :=
  ((C3_settings_clamping ⟨5, 1, 0, none⟩ EncodingSettings.default
    ⟨encoderConfig 1920 1080 EncodingSettings.default⟩ 1920 1080 true).1 (by decide)).2.1

/-! ### Deferred-switch failure atomicity (claim C6) -/

theorem switchMonitor_fail (newIndex : Nat) (st : SessionState)
    (maybeCapturer : Option DdaCapture) (encoderOk : Bool)
    (hfail : maybeCapturer = none ∨ encoderOk = false) :
    switchMonitor newIndex st maybeCapturer encoderOk = (st, false) := by
  unfold switchMonitor
  by_cases hidx : newIndex = st.currentMonitorIndex
  · rw [if_pos hidx]
  · rw [if_neg hidx]
    rcases hfail with hc | he
    · rw [hc]
    · subst he
      cases maybeCapturer with
      | none => rfl
      | some cap => simp

theorem applyEncodingSettings_fail (payload : EncodingSettingsPayload)
    (settings : EncodingSettings) (encoder : AmfEncoder) (width height : Nat) :
    (applyEncodingSettings payload settings encoder width height false).settings = settings ∧
    (applyEncodingSettings payload settings encoder width height false).encoder = encoder ∧
    (applyEncodingSettings payload settings encoder width height false).changed = false := by
  simp only [applyEncodingSettings]
  split_ifs with h1 h2
  · exact ⟨rfl, rfl, rfl⟩
  · simp at h2
  · exact ⟨rfl, rfl, rfl⟩

theorem monitorPhase_fail (st1 : SessionState) (env : IterEnv)
    (hfail : env.newCapturer = none ∨ env.switchEncoderOk = false) :
    monitorPhase st1 env = { st1 with pendingMonitorSwitch := none } := by
  unfold monitorPhase
  cases hpm : st1.pendingMonitorSwitch with
  | none =>
      cases st1
      simp_all
  | some newIndex =>
      dsimp only
      rw [switchMonitor_fail newIndex _ env.newCapturer env.switchEncoderOk hfail]
      simp

theorem settingsPhase_fail (st2 : SessionState) (env : IterEnv)
    (hsf : env.settingsEncoderOk = false) (hecho : env.echoSendOk = true) :
    (settingsPhase st2 env).2.2 = true ∧
    (settingsPhase st2 env).1.currentMonitorIndex = st2.currentMonitorIndex ∧
    (settingsPhase st2 env).1.capturer = st2.capturer ∧
    (settingsPhase st2 env).1.encoder = st2.encoder ∧
    (settingsPhase st2 env).1.settings = st2.settings := by
  unfold settingsPhase
  cases hpe : st2.pendingEncodingSettings with
  | none => exact ⟨rfl, rfl, rfl, rfl, rfl⟩
  | some payload =>
      dsimp only
      rw [hsf]
      exact ⟨hecho, rfl, rfl,
        (applyEncodingSettings_fail payload st2.settings st2.encoder
          st2.capturer.width st2.capturer.height).2.1,
        (applyEncodingSettings_fail payload st2.settings st2.encoder
          st2.capturer.width st2.capturer.height).1⟩

/-- Claim C6.  Deferred-switch failures are atomic: a failing capture or
encoder construction during switch_monitor leaves the whole state
untouched and returns Ok(false); a failing encoder construction in
apply_encoding_settings leaves settings and encoder untouched and returns
false; and at the loop level an iteration whose pending switch or pending
settings change fails leaves monitor index, capturer, encoder and active
settings unchanged and the loop keeps running. -/
theorem C6_failure_atomicity :
    (∀ (newIndex : Nat) (st : SessionState) (maybeCapturer : Option DdaCapture)
        (encoderOk : Bool),
      maybeCapturer = none ∨ encoderOk = false →
      switchMonitor newIndex st maybeCapturer encoderOk = (st, false)) ∧
    (∀ (payload : EncodingSettingsPayload) (settings : EncodingSettings)
        (encoder : AmfEncoder) (width height : Nat),
      (applyEncodingSettings payload settings encoder width height false).settings =
          settings ∧
        (applyEncodingSettings payload settings encoder width height false).encoder =
          encoder ∧
        (applyEncodingSettings payload settings encoder width height false).changed =
          false) ∧
    (∀ (st : SessionState) (env : IterEnv) (effs : List ControlEffect),
      env.drain = DrainOutcome.effects effs →
      env.newCapturer = none ∨ env.switchEncoderOk = false →
      env.settingsEncoderOk = false →
      env.echoSendOk = true →
      env.captureOutcome = Except.ok false →
      (sessionIterate st env).outcome = IterOutcome.next ∧
      (sessionIterate st env).state.currentMonitorIndex =
        (drainControls st effs).currentMonitorIndex ∧
      (sessionIterate st env).state.capturer = (drainControls st effs).capturer ∧
      (sessionIterate st env).state.encoder = (drainControls st effs).encoder ∧
      (sessionIterate st env).state.settings = (drainControls st effs).settings) := by
  refine ⟨switchMonitor_fail, applyEncodingSettings_fail, ?_⟩
  intro st env effs hdrain hswitchfail hsettingsfail hecho hcap
  have hmp := monitorPhase_fail (drainControls st effs) env hswitchfail
  have hsp := settingsPhase_fail { drainControls st effs with pendingMonitorSwitch := none }
    env hsettingsfail hecho
  simp only [sessionIterate, hdrain, controlPhase, hmp]
  rw [hsp.1]
  simp only [if_true]
  unfold capturePhase
  rw [hcap]
  exact ⟨rfl, hsp.2.1, hsp.2.2.1, hsp.2.2.2.1, hsp.2.2.2.2⟩

/-- Witness for C6 at a concrete failing switch. -/
theorem C6_failure_atomicity_witness :
    switchMonitor 1 (initialState ⟨64, 64⟩) none true = (initialState ⟨64, 64⟩, false) :=
  C6_failure_atomicity.1 1 (initialState ⟨64, 64⟩) none true (Or.inl rfl)

/-! ### Video-packet emission invariants (claim C5) -/

theorem videoPackets_nil : videoPackets [] = [] := rfl

theorem videoPackets_cons_video (p : List Nat) (l : List Emit) :
    videoPackets (Emit.video p :: l) = p :: videoPackets l := rfl

theorem videoPackets_append (a b : List Emit) :
    videoPackets (a ++ b) = videoPackets a ++ videoPackets b :=
  List.filterMap_append a b _

theorem drainControls_frameSeq (effs : List ControlEffect) :
    ∀ st : SessionState, (drainControls st effs).frameSeq = st.frameSeq := by
  induction effs with
  | nil => intro st; rfl
  | cons eff rest ih =>
      intro st
      have h1 : (applyControlEffect st eff).frameSeq = st.frameSeq := by
        cases eff <;> rfl
      calc (drainControls st (eff :: rest)).frameSeq
          = (drainControls (applyControlEffect st eff) rest).frameSeq := rfl
        _ = (applyControlEffect st eff).frameSeq := ih _
        _ = st.frameSeq := h1

theorem switchMonitor_frameSeq (newIndex : Nat) (st : SessionState)
    (maybeCapturer : Option DdaCapture) (encoderOk : Bool) :
    (switchMonitor newIndex st maybeCapturer encoderOk).1.frameSeq = st.frameSeq := by
  unfold switchMonitor
  split
  · rfl
  · split
    · rfl
    · split
      · rfl
      · rfl

theorem monitorPhase_frameSeq (st : SessionState) (env : IterEnv) :
    (monitorPhase st env).frameSeq = st.frameSeq := by
  unfold monitorPhase
  split
  · rfl
  · dsimp only
    split
    · exact switchMonitor_frameSeq _ _ _ _
    · exact switchMonitor_frameSeq _ _ _ _

theorem settingsPhase_frameSeq (st : SessionState) (env : IterEnv) :
    (settingsPhase st env).1.frameSeq = st.frameSeq := by
  unfold settingsPhase
  split
  · rfl
  · rfl

theorem settingsPhase_no_video (st : SessionState) (env : IterEnv) :
    videoPackets (settingsPhase st env).2.1 = [] := by
  unfold settingsPhase
  split
  · rfl
  · rfl

theorem sendVideoFrames_spec (frames : List EncodedFrame) :
    ∀ (s : Nat) (failAt : Option Nat), s < 2 ^ 32 →
      (sendVideoFrames s frames failAt).2.1 =
          (s + (videoPackets (sendVideoFrames s frames failAt).1).length) % 2 ^ 32 ∧
      (sendVideoFrames s frames failAt).2.1 < 2 ^ 32 ∧
      ∀ k, k < (videoPackets (sendVideoFrames s frames failAt).1).length →
        ∃ ef : EncodedFrame,
          (videoPackets (sendVideoFrames s frames failAt).1).getD k [] =
            buildVideoPacket ef.data ((s + k) % 2 ^ 32) (ef.pts % 2 ^ 32) ef.isKeyframe := by
  induction frames with
  | nil =>
      intro s failAt hs
      refine ⟨?_, hs, ?_⟩
      · simp [sendVideoFrames, videoPackets]
        omega
      · intro k hk
        simp [sendVideoFrames, videoPackets] at hk
  | cons ef rest ih =>
      intro s failAt hs
      have hmod : (s + 1) % 2 ^ 32 < 2 ^ 32 := Nat.mod_lt _ (by decide)
      match failAt with
      | some 0 =>
          refine ⟨?_, hmod, ?_⟩
          · simp [sendVideoFrames, videoPackets]
          · intro k hk
            have hk0 : k = 0 := by
              simp [sendVideoFrames, videoPackets] at hk
              exact hk
            subst hk0
            refine ⟨ef, ?_⟩
            have hs0 : (s + 0) % 2 ^ 32 = s := by omega
            rw [hs0]
            simp [sendVideoFrames, videoPackets]
      | some (n + 1) =>
          obtain ⟨ih1, ih2, ih3⟩ := ih ((s + 1) % 2 ^ 32) (some n) hmod
          simp only [sendVideoFrames]
          rw [videoPackets_cons_video]
          refine ⟨?_, ih2, ?_⟩
          · rw [List.length_cons, ih1]
            omega
          · intro k hk
            cases k with
            | zero =>
                refine ⟨ef, ?_⟩
                rw [List.getD_cons_zero]
                have hseq : (s + 0) % 2 ^ 32 = s := by omega
                rw [hseq]
            | succ k =>
                obtain ⟨ef2, hef2⟩ := ih3 k (by simpa using hk)
                refine ⟨ef2, ?_⟩
                rw [List.getD_cons_succ, hef2]
                have harg : ((s + 1) % 2 ^ 32 + k) % 2 ^ 32 = (s + (k + 1)) % 2 ^ 32 := by
                  omega
                rw [harg]
      | none =>
          obtain ⟨ih1, ih2, ih3⟩ := ih ((s + 1) % 2 ^ 32) none hmod
          simp only [sendVideoFrames]
          rw [videoPackets_cons_video]
          refine ⟨?_, ih2, ?_⟩
          · rw [List.length_cons, ih1]
            omega
          · intro k hk
            cases k with
            | zero =>
                refine ⟨ef, ?_⟩
                rw [List.getD_cons_zero]
                have hseq : (s + 0) % 2 ^ 32 = s := by omega
                rw [hseq]
            | succ k =>
                obtain ⟨ef2, hef2⟩ := ih3 k (by simpa using hk)
                refine ⟨ef2, ?_⟩
                rw [List.getD_cons_succ, hef2]
                have harg : ((s + 1) % 2 ^ 32 + k) % 2 ^ 32 = (s + (k + 1)) % 2 ^ 32 := by
                  omega
                rw [harg]

theorem capturePhase_video_spec (st : SessionState) (acc : List Emit) (env : IterEnv)
    (hacc : videoPackets acc = []) (hs : st.frameSeq < 2 ^ 32) :
    (capturePhase st acc env).state.frameSeq =
        (st.frameSeq + (videoPackets (capturePhase st acc env).emits).length) % 2 ^ 32 ∧
    (capturePhase st acc env).state.frameSeq < 2 ^ 32 ∧
    ∀ k, k < (videoPackets (capturePhase st acc env).emits).length →
      ∃ ef : EncodedFrame,
        (videoPackets (capturePhase st acc env).emits).getD k [] =
          buildVideoPacket ef.data ((st.frameSeq + k) % 2 ^ 32) (ef.pts % 2 ^ 32)
            ef.isKeyframe := by
  unfold capturePhase
  split
  · refine ⟨?_, hs, ?_⟩
    · rw [hacc]
      simp
      omega
    · intro k hk
      rw [hacc] at hk
      simp at hk
  · refine ⟨?_, hs, ?_⟩
    · rw [hacc]
      simp
      omega
    · intro k hk
      rw [hacc] at hk
      simp at hk
  · dsimp only
    split
    · refine ⟨?_, hs, ?_⟩
      · rw [hacc]
        simp
        omega
      · intro k hk
        rw [hacc] at hk
        simp at hk
    · rename_i frames heq
      obtain ⟨h1, h2, h3⟩ :=
        sendVideoFrames_spec frames st.frameSeq env.videoSendFail hs
      rw [videoPackets_append, hacc, List.nil_append]
      exact ⟨h1, h2, h3⟩

theorem sessionIterate_video_spec (st : SessionState) (env : IterEnv)
    (hs : st.frameSeq < 2 ^ 32) :
    (sessionIterate st env).state.frameSeq =
        (st.frameSeq + (videoPackets (sessionIterate st env).emits).length) % 2 ^ 32 ∧
    (sessionIterate st env).state.frameSeq < 2 ^ 32 ∧
    ∀ k, k < (videoPackets (sessionIterate st env).emits).length →
      ∃ ef : EncodedFrame,
        (videoPackets (sessionIterate st env).emits).getD k [] =
          buildVideoPacket ef.data ((st.frameSeq + k) % 2 ^ 32) (ef.pts % 2 ^ 32)
            ef.isKeyframe := by
  unfold sessionIterate
  cases hdrain : env.drain with
  | closed =>
      refine ⟨?_, hs, ?_⟩
      · simp [videoPackets]
        omega
      · intro k hk
        simp [videoPackets] at hk
  | effects effs =>
      dsimp only
      have hfs : (controlPhase (drainControls st effs) env).1.frameSeq = st.frameSeq := by
        unfold controlPhase
        rw [settingsPhase_frameSeq, monitorPhase_frameSeq, drainControls_frameSeq]
      have hnv : videoPackets (controlPhase (drainControls st effs) env).2.1 = [] := by
        unfold controlPhase
        exact settingsPhase_no_video _ _
      split
      · have h := capturePhase_video_spec (controlPhase (drainControls st effs) env).1
          (controlPhase (drainControls st effs) env).2.1 env hnv (hfs ▸ hs)
        rw [hfs] at h
        exact h
      · refine ⟨?_, hfs ▸ hs, ?_⟩
        · rw [hnv]
          simp [hfs]
          omega
        · intro k hk
          rw [hnv] at hk
          simp at hk

theorem runSession_cons (st : SessionState) (env : IterEnv) (rest : List IterEnv) :
    runSession st (env :: rest) =
      match (sessionIterate st env).outcome with
      | IterOutcome.next =>
          ((sessionIterate st env).emits ++ (runSession (sessionIterate st env).state rest).1,
            (runSession (sessionIterate st env).state rest).2)
      | _ => ((sessionIterate st env).emits, (sessionIterate st env).state) := rfl

theorem runSession_video_spec (envs : List IterEnv) :
    ∀ st : SessionState, st.frameSeq < 2 ^ 32 →
      ∀ k, k < (videoPackets (runSession st envs).1).length →
        ∃ ef : EncodedFrame,
          (videoPackets (runSession st envs).1).getD k [] =
            buildVideoPacket ef.data ((st.frameSeq + k) % 2 ^ 32) (ef.pts % 2 ^ 32)
              ef.isKeyframe := by
  induction envs with
  | nil =>
      intro st hs k hk
      simp [runSession, videoPackets] at hk
  | cons env rest ih =>
      intro st hs k hk
      obtain ⟨hseq, hlt, hspec⟩ := sessionIterate_video_spec st env hs
      rw [runSession_cons] at hk ⊢
      cases houtcome : (sessionIterate st env).outcome with
      | next =>
          rw [houtcome] at hk
          dsimp only at hk ⊢
          rw [videoPackets_append] at hk ⊢
          by_cases hk1 : k < (videoPackets (sessionIterate st env).emits).length
          · rw [List.getD_append _ _ _ _ (by simpa using hk1)]
            exact hspec k hk1
          · have hge : (videoPackets (sessionIterate st env).emits).length ≤ k := by omega
            rw [List.getD_append_right _ _ _ _ hge]
            have hk2 : k - (videoPackets (sessionIterate st env).emits).length <
                (videoPackets (runSession (sessionIterate st env).state rest).1).length := by
              rw [List.length_append] at hk
              omega
            obtain ⟨ef2, hef2⟩ := ih (sessionIterate st env).state hlt _ hk2
            refine ⟨ef2, ?_⟩
            rw [hef2, hseq]
            have harg :
                ((st.frameSeq + (videoPackets (sessionIterate st env).emits).length) % 2 ^ 32 +
                    (k - (videoPackets (sessionIterate st env).emits).length)) % 2 ^ 32 =
                  (st.frameSeq + k) % 2 ^ 32 := by
              omega
            rw [harg]
      | closed =>
          rw [houtcome] at hk
          dsimp only at hk ⊢
          exact hspec k hk
      | fatal =>
          rw [houtcome] at hk
          dsimp only at hk ⊢
          exact hspec k hk

theorem buildVideoPacket_type (data : List Nat) (s pts : Nat) (kf : Bool) :
    packetTypeByte (buildVideoPacket data s pts kf) = 0x01 := by
  simp [packetTypeByte, buildVideoPacket, FrameHeader.toBytes, FrameType.toByte]

theorem buildVideoPacket_flags (data : List Nat) (s pts : Nat) (kf : Bool) :
    packetFlags (buildVideoPacket data s pts kf) = if kf then 3 else 2 := by
  cases kf <;>
    simp [packetFlags, buildVideoPacket, FrameHeader.toBytes, END_OF_FRAME_BIT, KEYFRAME_BIT]

theorem buildVideoPacket_sequence (data : List Nat) (s pts : Nat) (kf : Bool)
    (hs : s < 2 ^ 32) :
    packetSequence (buildVideoPacket data s pts kf) = s := by
  simp only [packetSequence, buildVideoPacket, FrameHeader.toBytes, u32ToLeBytes,
    List.cons_append, List.nil_append, List.getD_cons_zero, List.getD_cons_succ]
  exact leBytes_roundtrip s hs

/-- Claim C5.  Within one session every emitted VideoFrame packet is the
wire serialization of one encoder access unit: the k-th video packet
carries sequence k mod 2^32 (so sequences start at 0 and increase by one
per transmitted access unit), type tag 0x01, END_OF_FRAME always set, and
KEYFRAME set iff the encoder marked that access unit a keyframe. -/
theorem C5_video_packet_invariants (cap : DdaCapture) (envs : List IterEnv)
    (k : Nat) (hk : k < (videoPackets (runSession (initialState cap) envs).1).length) :
    ∃ ef : EncodedFrame,
      (videoPackets (runSession (initialState cap) envs).1).getD k [] =
        buildVideoPacket ef.data (k % 2 ^ 32) (ef.pts % 2 ^ 32) ef.isKeyframe ∧
      packetTypeByte ((videoPackets (runSession (initialState cap) envs).1).getD k []) = 0x01 ∧
      packetFlags ((videoPackets (runSession (initialState cap) envs).1).getD k []) &&&
          END_OF_FRAME_BIT = END_OF_FRAME_BIT ∧
      (packetFlags ((videoPackets (runSession (initialState cap) envs).1).getD k []) &&&
          KEYFRAME_BIT = KEYFRAME_BIT ↔ ef.isKeyframe = true) ∧
      packetSequence ((videoPackets (runSession (initialState cap) envs).1).getD k []) =
        k % 2 ^ 32 := by
  have hinit : (initialState cap).frameSeq < 2 ^ 32 := by
    show (0 : Nat) < 2 ^ 32
    decide
  obtain ⟨ef, hef⟩ := runSession_video_spec envs (initialState cap) hinit k hk
  rw [show (initialState cap).frameSeq = 0 from rfl, Nat.zero_add] at hef
  have hlt : k % 2 ^ 32 < 2 ^ 32 := Nat.mod_lt _ (by decide)
  refine ⟨ef, hef, ?_, ?_, ?_, ?_⟩ <;> rw [hef]
  · exact buildVideoPacket_type _ _ _ _
  · rw [buildVideoPacket_flags]
    cases ef.isKeyframe <;> decide
  · rw [buildVideoPacket_flags]
    cases ef.isKeyframe <;> decide
  · exact buildVideoPacket_sequence _ _ _ _ hlt

/-- Witness for C5: a two-iteration run emitting two access units. -/
theorem C5_video_packet_invariants_witness :
    ∃ ef : EncodedFrame,
      (videoPackets (runSession (initialState ⟨64, 64⟩)
          [⟨DrainOutcome.effects [], none, true, true, true, Except.ok true,
            fun b => Except.ok [⟨[9], 0, b, 0⟩, ⟨[8], 1, false, 0⟩], none⟩]).1).getD 1 [] =
        buildVideoPacket ef.data (1 % 2 ^ 32) (ef.pts % 2 ^ 32) ef.isKeyframe ∧
      packetTypeByte ((videoPackets (runSession (initialState ⟨64, 64⟩)
          [⟨DrainOutcome.effects [], none, true, true, true, Except.ok true,
            fun b => Except.ok [⟨[9], 0, b, 0⟩, ⟨[8], 1, false, 0⟩], none⟩]).1).getD 1 []) = 0x01 ∧
      packetFlags ((videoPackets (runSession (initialState ⟨64, 64⟩)
          [⟨DrainOutcome.effects [], none, true, true, true, Except.ok true,
            fun b => Except.ok [⟨[9], 0, b, 0⟩, ⟨[8], 1, false, 0⟩], none⟩]).1).getD 1 []) &&&
          END_OF_FRAME_BIT = END_OF_FRAME_BIT ∧
      (packetFlags ((videoPackets (runSession (initialState ⟨64, 64⟩)
          [⟨DrainOutcome.effects [], none, true, true, true, Except.ok true,
            fun b => Except.ok [⟨[9], 0, b, 0⟩, ⟨[8], 1, false, 0⟩], none⟩]).1).getD 1 []) &&&
          KEYFRAME_BIT = KEYFRAME_BIT ↔ ef.isKeyframe = true) ∧
      packetSequence ((videoPackets (runSession (initialState ⟨64, 64⟩)
          [⟨DrainOutcome.effects [], none, true, true, true, Except.ok true,
            fun b => Except.ok [⟨[9], 0, b, 0⟩, ⟨[8], 1, false, 0⟩], none⟩]).1).getD 1 []) =
        1 % 2 ^ 32 :=
  C5_video_packet_invariants ⟨64, 64⟩
    [⟨DrainOutcome.effects [], none, true, true, true, Except.ok true,
      fun b => Except.ok [⟨[9], 0, b, 0⟩, ⟨[8], 1, false, 0⟩], none⟩] 1 (by decide)

/-! ### Keyframe after an accepted change (claim C2) -/

theorem sendVideoFrames_cons (s : Nat) (ef : EncodedFrame) (rest : List EncodedFrame)
    (failAt : Option Nat) :
    ∃ tail, (sendVideoFrames s (ef :: rest) failAt).1 =
      Emit.video (buildVideoPacket ef.data s (ef.pts % 2 ^ 32) ef.isKeyframe) :: tail := by
  cases failAt with
  | none => exact ⟨_, rfl⟩
  | some n =>
      cases n with
      | zero => exact ⟨[], rfl⟩
      | succ n => exact ⟨_, rfl⟩

theorem monitorPhase_none (st1 : SessionState) (env : IterEnv)
    (hpm : st1.pendingMonitorSwitch = none) : monitorPhase st1 env = st1 := by
  unfold monitorPhase
  rw [hpm]

theorem monitorPhase_accept (st1 : SessionState) (env : IterEnv) (newIndex : Nat)
    (cap : DdaCapture) (hpm : st1.pendingMonitorSwitch = some newIndex)
    (hidx : newIndex ≠ st1.currentMonitorIndex)
    (hcap : env.newCapturer = some cap) (hsw : env.switchEncoderOk = true) :
    monitorPhase st1 env =
      { st1 with
          pendingMonitorSwitch := none
          capturer := cap
          encoder := ⟨encoderConfig cap.width cap.height st1.settings⟩
          currentMonitorIndex := newIndex
          forceKeyframe := true } := by
  unfold monitorPhase
  rw [hpm]
  dsimp only
  unfold switchMonitor
  rw [hcap, hsw, if_neg hidx]
  rfl

theorem capturePhase_first_video (st : SessionState) (acc : List Emit) (env : IterEnv)
    (frames : List EncodedFrame) (ef : EncodedFrame)
    (hforce : st.forceKeyframe = true)
    (hacc : videoPackets acc = [])
    (hcapture : env.captureOutcome = Except.ok true)
    (hencode : env.encodeOutcome true = Except.ok frames)
    (hhead : frames.head? = some ef) :
    (videoPackets (capturePhase st acc env).emits).head? =
      some (buildVideoPacket ef.data st.frameSeq (ef.pts % 2 ^ 32) ef.isKeyframe) := by
  unfold capturePhase
  rw [hcapture]
  dsimp only
  rw [hforce, hencode]
  dsimp only
  cases frames with
  | nil => simp at hhead
  | cons ef0 rest =>
      have hef0 : ef0 = ef := by simpa using hhead
      subst hef0
      obtain ⟨tail, htail⟩ := sendVideoFrames_cons st.frameSeq ef0 rest env.videoSendFail
      rw [htail, videoPackets_append, hacc, List.nil_append, videoPackets_cons_video]
      rfl

/-- Counterexample to claim C2 as stated: a capture timeout in the very
iteration that accepted the monitor switch discards the forced-keyframe
latch (std::mem::take runs before capture_frame), so with one timeout
between the accepted switch and the next successful capture, the first
VideoFrame transmitted afterwards does not carry the KEYFRAME flag even
though the encoder honours every forced keyframe (its output is marked a
keyframe whenever the force flag reaches it).  Iteration 0 accepts the
switch from monitor 0 to monitor 1 and times out; iteration 1 captures
successfully and emits the first (non-key) VideoFrame. -/
theorem C2_counterexample :
    (sessionIterate (initialState ⟨100, 50⟩)
        ⟨DrainOutcome.effects [ControlEffect.monitorSelect 1], some ⟨200, 100⟩, true, true,
          true, Except.ok false, fun b => Except.ok [⟨[7], 0, b, 0⟩], none⟩).state.currentMonitorIndex = 1 ∧
    (sessionIterate (initialState ⟨100, 50⟩)
        ⟨DrainOutcome.effects [ControlEffect.monitorSelect 1], some ⟨200, 100⟩, true, true,
          true, Except.ok false, fun b => Except.ok [⟨[7], 0, b, 0⟩], none⟩).outcome =
      IterOutcome.next ∧
    (sessionIterate (initialState ⟨100, 50⟩)
        ⟨DrainOutcome.effects [ControlEffect.monitorSelect 1], some ⟨200, 100⟩, true, true,
          true, Except.ok false, fun b => Except.ok [⟨[7], 0, b, 0⟩], none⟩).state.forceKeyframe =
      false ∧
    videoPackets (runSession (initialState ⟨100, 50⟩)
        [⟨DrainOutcome.effects [ControlEffect.monitorSelect 1], some ⟨200, 100⟩, true, true,
            true, Except.ok false, fun b => Except.ok [⟨[7], 0, b, 0⟩], none⟩,
          ⟨DrainOutcome.effects [], none, true, true, true, Except.ok true,
            fun b => Except.ok [⟨[7], 0, b, 0⟩], none⟩]).1 =
      [buildVideoPacket [7] 0 0 false] ∧
    packetFlags (buildVideoPacket [7] 0 0 false) &&& KEYFRAME_BIT = 0 := by
  decide

/-- Claim C2, amended.  After an iteration accepts a monitor switch (a
pending MonitorSelect with a different index whose capture and encoder
constructions succeed) or an encoding-settings change that alters the
active settings, the keyframe latch is set; provided the capture in that
same iteration succeeds (no timeout intervenes, which would discard the
latch) and the encoder marks the forced access unit a keyframe, the first
VideoFrame packet transmitted carries the KEYFRAME flag. -/
theorem C2_keyframe_after_change (st : SessionState) (env : IterEnv)
    (effs : List ControlEffect) (payload : EncodingSettingsPayload)
    (newIndex : Nat) (cap : DdaCapture) (frames : List EncodedFrame) (ef : EncodedFrame)
    (hdrain : env.drain = DrainOutcome.effects effs)
    (haccept :
      ((drainControls st effs).pendingMonitorSwitch = some newIndex ∧
        newIndex ≠ (drainControls st effs).currentMonitorIndex ∧
        env.newCapturer = some cap ∧
        env.switchEncoderOk = true ∧
        (drainControls st effs).pendingEncodingSettings = none) ∨
      ((drainControls st effs).pendingMonitorSwitch = none ∧
        (drainControls st effs).pendingEncodingSettings = some payload ∧
        (applyEncodingSettings payload (drainControls st effs).settings
            (drainControls st effs).encoder (drainControls st effs).capturer.width
            (drainControls st effs).capturer.height env.settingsEncoderOk).changed = true ∧
        env.echoSendOk = true))
    (hcapture : env.captureOutcome = Except.ok true)
    (hencode : env.encodeOutcome true = Except.ok frames)
    (hhead : frames.head? = some ef)
    (hhonest : ef.isKeyframe = true) :
    ∃ pkt, (videoPackets (sessionIterate st env).emits).head? = some pkt ∧
      packetFlags pkt &&& KEYFRAME_BIT = KEYFRAME_BIT := by
  simp only [sessionIterate, hdrain]
  rcases haccept with ⟨hpm, hidx, hcapt, hsw, hpe⟩ | ⟨hpm, hpe, hch, hecho⟩
  · rw [controlPhase, monitorPhase_accept _ _ _ _ hpm hidx hcapt hsw]
    unfold settingsPhase
    rw [show ({ drainControls st effs with
          pendingMonitorSwitch := none
          capturer := cap
          encoder := ⟨encoderConfig cap.width cap.height (drainControls st effs).settings⟩
          currentMonitorIndex := newIndex
          forceKeyframe := true } : SessionState).pendingEncodingSettings = none from hpe]
    dsimp only
    rw [if_pos rfl]
    refine ⟨_, capturePhase_first_video _ _ _ frames ef rfl rfl hcapture hencode hhead, ?_⟩
    rw [buildVideoPacket_flags, hhonest]
    decide
  · rw [controlPhase, monitorPhase_none _ _ hpm]
    unfold settingsPhase
    rw [hpe]
    dsimp only
    rw [if_pos hecho]
    have hforce : (({ drainControls st effs with
        pendingEncodingSettings := none } : SessionState).forceKeyframe ||
          (applyEncodingSettings payload (drainControls st effs).settings
            (drainControls st effs).encoder (drainControls st effs).capturer.width
            (drainControls st effs).capturer.height env.settingsEncoderOk).changed) = true := by
      rw [hch, Bool.or_true]
    refine ⟨_, capturePhase_first_video _ _ _ frames ef hforce rfl hcapture hencode hhead, ?_⟩
    rw [buildVideoPacket_flags, hhonest]
    decide

/-- Witness for the amended C2 at a concrete accepted monitor switch. -/
theorem C2_keyframe_after_change_witness :
    ∃ pkt, (videoPackets (sessionIterate (initialState ⟨100, 50⟩)
        ⟨DrainOutcome.effects [ControlEffect.monitorSelect 1], some ⟨200, 100⟩, true, true,
          true, Except.ok true, fun b => Except.ok [⟨[7], 3, b, 0⟩], none⟩).emits).head? =
      some pkt ∧
      packetFlags pkt &&& KEYFRAME_BIT = KEYFRAME_BIT :=
  C2_keyframe_after_change (initialState ⟨100, 50⟩)
    ⟨DrainOutcome.effects [ControlEffect.monitorSelect 1], some ⟨200, 100⟩, true, true,
      true, Except.ok true, fun b => Except.ok [⟨[7], 3, b, 0⟩], none⟩
    [ControlEffect.monitorSelect 1] ⟨0, 0, 0, none⟩ 1 ⟨200, 100⟩
    [⟨[7], 3, true, 0⟩] ⟨[7], 3, true, 0⟩ rfl
    (Or.inl ⟨by decide, by decide, rfl, rfl, by decide⟩) rfl rfl rfl rfl

end WebDisplay
